import Mathlib

/-!
Verification development for the NutriTrack nutrition-logging application.

The development shallowly embeds the AI response normalization pipeline
(`src/services/geminiService.ts`) and the daily nutrition ledger
(`src/hooks/useStorage.ts`).  JavaScript numbers are modelled as rationals
(all values produced by JSON decoding are finite), JSON-like values as an
inductive `JValue`, and host functions (JSON.parse, Number, fresh ids,
clocks, the network) as explicit parameters.  Functions that the source
runs for their effects (network calls) are instrumented with a ghost trace
listing the requests that were issued, so that temporal claims such as
"no further attempt is made" become statements about the trace.
-/

namespace NutriTrack

/-- A JSON-like value, the result of a successful JSON.parse. -/
inductive JValue where
  | null : JValue
  | bool (b : Bool) : JValue
  | num (q : ℚ) : JValue
  | str (s : String) : JValue
  | arr (xs : List JValue) : JValue
  | obj (fields : List (String × JValue)) : JValue

/-- JavaScript property access `value[k]` on a decoded JSON value:
`some` on an object that has the field (last occurrence wins, as in
JSON.parse), `none` (undefined) otherwise. -/
def jGet (v : JValue) (k : String) : Option JValue :=
  match v with
  | .obj fields => fields.foldl (fun acc kv => if kv.1 = k then some kv.2 else acc) none
  | _ => none

/-- `typeof v === 'object' && v` is truthy: JSON objects and arrays. -/
def jsIsObject (v : JValue) : Bool :=
  match v with
  | .obj _ => true
  | .arr _ => true
  | _ => false

/-- JavaScript truthiness of a possibly-undefined decoded JSON value. -/
def jTruthy (v : Option JValue) : Bool :=
  match v with
  | none => false
  | some .null => false
  | some (.bool b) => b
  | some (.num q) => decide (q ≠ 0)
  | some (.str s) => decide (s ≠ "")
  | some (.arr _) => true
  | some (.obj _) => true

/-- `Math.max(0, q)` on a (finite) JavaScript number. -/
def jsMax0 (q : ℚ) : ℚ :=
  if q ≤ 0 then 0 else q

/-- `Math.round(q)` on a finite JavaScript number: round half toward
positive infinity. -/
def jsRound (q : ℚ) : ℚ :=
  ((q + 1/2).floor : ℤ)

/-- `s.trim()` on a JavaScript string: drop whitespace from both ends.
Modelled on character lists so that it reduces inside the kernel. -/
def jsTrim (s : String) : String :=
  String.mk (((s.toList.dropWhile Char.isWhitespace).reverse.dropWhile
    Char.isWhitespace).reverse)

/-- `s.startsWith(p)` on JavaScript strings. -/
def jsStartsWith (s p : String) : Bool :=
  p.toList.isPrefixOf s.toList

/-- `a || b` for a possibly-undefined JavaScript string `a`. -/
def jsOrStr (a : Option String) (b : String) : String :=
  match a with
  | some s => if s = "" then b else s
  | none => b

/-- `s.includes(t)` on JavaScript strings. -/
def jsIncludes (s t : String) : Bool :=
  decide (t.toList <:+: s.toList)

/-- A simplified executable model of the host conversion `Number(s)` for
plain decimal literals: trims the string, maps the empty string to 0,
and accepts an optional sign followed by digits with an optional
fractional part.  Anything else is NaN (`none`).  Used only to
instantiate the abstract string-to-number parameter of the main
theorems at concrete inputs. -/
def digitsVal (cs : List Char) : ℚ :=
  cs.foldl (fun a c => a * 10 + ((c.toNat - 48 : ℕ) : ℚ)) 0

/-- Value of a fractional digit string, in `[0, 1)`. -/
def fracVal (cs : List Char) : ℚ :=
  cs.foldr (fun c a => (((c.toNat - 48 : ℕ) : ℚ) + a) / 10) 0

/-- See `digitsVal`; the concrete stand-in for the host `Number`. -/
def jsNumber (s : String) : Option ℚ :=
  match (jsTrim s).toList with
  | [] => some 0
  | t =>
    let signed : ℚ × List Char :=
      match t with
      | '+' :: r => (1, r)
      | '-' :: r => (-1, r)
      | r => (1, r)
    match signed.2.span Char.isDigit with
    | (intPart, []) =>
      if intPart = [] then none else some (signed.1 * digitsVal intPart)
    | (intPart, '.' :: fracRest) =>
      match fracRest.span Char.isDigit with
      | (fracPart, []) =>
        if intPart = [] ∧ fracPart = [] then none
        else some (signed.1 * (digitsVal intPart + fracVal fracPart))
      | _ => none
    | _ => none

/-- Totals of the four tracked nutrients (the NutritionTotals interface). -/
structure NutritionTotals where
  calories : ℚ
  protein : ℚ
  carbs : ℚ
  fats : ℚ
  deriving DecidableEq

/-- A logged meal (the Meal interface of `types/nutrition.ts`). -/
structure Meal where
  id : String
  timestamp : String
  name : String
  calories : ℚ
  protein : ℚ
  carbs : ℚ
  fats : ℚ
  fiber : Option ℚ
  serving_size : Option String
  confidence : Option String
  mealType : Option String
  imageUri : Option String
  notes : Option String
  deriving DecidableEq

/-- A daily ledger entry (the DailyNutrition interface); `waterIntake`
is optional in the source type. -/
structure DailyNutrition where
  calories : ℚ
  protein : ℚ
  carbs : ℚ
  fats : ℚ
  meals : List Meal
  waterIntake : Option ℚ
  deriving DecidableEq

/-- `initialDailyNutrition` of `useStorage.ts`. -/
def initialDailyNutrition : DailyNutrition :=
  { calories := 0, protein := 0, carbs := 0, fats := 0, meals := [], waterIntake := some 0 }

/-- `calculateMealTotals` of `useStorage.ts`: reduce over the meal list.
On rationals `meal.calories || 0` is the identity, since `0 || 0 = 0`. -/
def calculateMealTotals (meals : List Meal) : NutritionTotals :=
  meals.foldl
    (fun acc meal =>
      { calories := acc.calories + meal.calories
        protein := acc.protein + meal.protein
        carbs := acc.carbs + meal.carbs
        fats := acc.fats + meal.fats })
    { calories := 0, protein := 0, carbs := 0, fats := 0 }

/-- A `Partial<Meal>` update object: each field is present or absent. -/
structure MealPatch where
  id : Option String
  timestamp : Option String
  name : Option String
  calories : Option ℚ
  protein : Option ℚ
  carbs : Option ℚ
  fats : Option ℚ
  fiber : Option (Option ℚ)
  serving_size : Option (Option String)
  confidence : Option (Option String)
  mealType : Option (Option String)
  imageUri : Option (Option String)
  notes : Option (Option String)
  deriving DecidableEq

/-- The empty update object. -/
def MealPatch.empty : MealPatch :=
  { id := none, timestamp := none, name := none, calories := none, protein := none,
    carbs := none, fats := none, fiber := none, serving_size := none, confidence := none,
    mealType := none, imageUri := none, notes := none }

/-- The spread `{ ...m, ...updates }` applied to a meal. -/
def applyPatch (m : Meal) (p : MealPatch) : Meal :=
  { id := p.id.getD m.id
    timestamp := p.timestamp.getD m.timestamp
    name := p.name.getD m.name
    calories := p.calories.getD m.calories
    protein := p.protein.getD m.protein
    carbs := p.carbs.getD m.carbs
    fats := p.fats.getD m.fats
    fiber := p.fiber.getD m.fiber
    serving_size := p.serving_size.getD m.serving_size
    confidence := p.confidence.getD m.confidence
    mealType := p.mealType.getD m.mealType
    imageUri := p.imageUri.getD m.imageUri
    notes := p.notes.getD m.notes }

/-- `addMeal` of `useDailyNutrition`: the fresh id and timestamp produced
by the host are passed explicitly. -/
def addMeal (data : DailyNutrition) (meal : Meal) (newId newTimestamp : String) :
    DailyNutrition :=
  let newMeal : Meal := { meal with id := newId, timestamp := newTimestamp }
  let meals := data.meals ++ [newMeal]
  let totals := calculateMealTotals meals
  { calories := totals.calories, protein := totals.protein, carbs := totals.carbs,
    fats := totals.fats, meals := meals, waterIntake := data.waterIntake }

/-- `updateMeal` of `useDailyNutrition`. -/
def updateMeal (data : DailyNutrition) (mealId : String) (updates : MealPatch) :
    DailyNutrition :=
  let meals := data.meals.map (fun m => if m.id = mealId then applyPatch m updates else m)
  let totals := calculateMealTotals meals
  { calories := totals.calories, protein := totals.protein, carbs := totals.carbs,
    fats := totals.fats, meals := meals, waterIntake := data.waterIntake }

/-- `deleteMeal` of `useDailyNutrition`. -/
def deleteMeal (data : DailyNutrition) (mealId : String) : DailyNutrition :=
  let meals := data.meals.filter (fun m => ¬ (m.id = mealId))
  let totals := calculateMealTotals meals
  { calories := totals.calories, protein := totals.protein, carbs := totals.carbs,
    fats := totals.fats, meals := meals, waterIntake := data.waterIntake }

/-- One ledger mutation, with the host-generated id and timestamp attached
to the add case. -/
inductive LedgerOp where
  | add (meal : Meal) (newId newTimestamp : String) : LedgerOp
  | update (mealId : String) (updates : MealPatch) : LedgerOp
  | del (mealId : String) : LedgerOp

/-- Apply one ledger mutation. -/
def applyOp (data : DailyNutrition) : LedgerOp → DailyNutrition
  | .add meal newId newTimestamp => addMeal data meal newId newTimestamp
  | .update mealId updates => updateMeal data mealId updates
  | .del mealId => deleteMeal data mealId

/-- Apply a sequence of ledger mutations, first operation first. -/
def applyOps (data : DailyNutrition) (ops : List LedgerOp) : DailyNutrition :=
  ops.foldl applyOp data

/-- The ledger consistency invariant: each stored aggregate equals the
corresponding component of the sum over the meal list. -/
def TotalsInv (d : DailyNutrition) : Prop :=
  d.calories = (calculateMealTotals d.meals).calories ∧
  d.protein = (calculateMealTotals d.meals).protein ∧
  d.carbs = (calculateMealTotals d.meals).carbs ∧
  d.fats = (calculateMealTotals d.meals).fats

instance (d : DailyNutrition) : Decidable (TotalsInv d) := by
  unfold TotalsInv
  infer_instance

/-- Host-environment inputs consumed while normalizing one stored meal:
a fresh id, the current instant in ISO form, and a random tag. -/
structure JsEnv where
  freshId : String
  nowIso : String
  randTag : String

/-- The inner `ensureNumber` helper of `normalizeMeal` in `useStorage.ts`:
finite numbers are clamped at 0, strings go through the host `Number`
conversion (passed as `strToNum`), everything else is the fallback. -/
def ensureNumber (strToNum : String → Option ℚ) (value : Option JValue) (fallback : ℚ) : ℚ :=
  match value with
  | some (.num q) => jsMax0 q
  | some (.str s) =>
    match strToNum s with
    | some parsed => jsMax0 parsed
    | none => fallback
  | _ => fallback

/-- `normalizeMeal` of `useStorage.ts`. -/
def normalizeMeal (strToNum : String → Option ℚ) (env : JsEnv) (meal : JValue)
    (index : ℕ) : Meal :=
  if jsIsObject meal = false then
    { id := env.freshId, timestamp := env.nowIso, name := "Meal " ++ toString (index + 1),
      calories := 0, protein := 0, carbs := 0, fats := 0, fiber := none,
      serving_size := none, confidence := none, mealType := none,
      imageUri := none, notes := none }
  else
    let timestamp :=
      match jGet meal "timestamp" with
      | some (.str s) => if jsTrim s ≠ "" then s else env.nowIso
      | _ => env.nowIso
    let id :=
      match jGet meal "id" with
      | some (.str s) =>
        if jsTrim s ≠ "" then s
        else timestamp ++ "-" ++ toString index ++ "-" ++ env.randTag
      | _ => timestamp ++ "-" ++ toString index ++ "-" ++ env.randTag
    { id := id
      timestamp := timestamp
      name :=
        match jGet meal "name" with
        | some (.str s) => if jsTrim s ≠ "" then jsTrim s else "Meal " ++ toString (index + 1)
        | _ => "Meal " ++ toString (index + 1)
      calories := ensureNumber strToNum (jGet meal "calories") 0
      protein := ensureNumber strToNum (jGet meal "protein") 0
      carbs := ensureNumber strToNum (jGet meal "carbs") 0
      fats := ensureNumber strToNum (jGet meal "fats") 0
      fiber :=
        match jGet meal "fiber" with
        | none => none
        | some v => some (ensureNumber strToNum (some v) 0)
      serving_size :=
        match jGet meal "serving_size" with
        | some (.str s) => some s
        | _ => none
      confidence :=
        match jGet meal "confidence" with
        | some (.str s) =>
          if s = "high" ∨ s = "medium" ∨ s = "low" then some s else none
        | _ => none
      mealType :=
        match jGet meal "mealType" with
        | some (.str s) =>
          if s = "breakfast" ∨ s = "lunch" ∨ s = "dinner" ∨ s = "snack"
          then some s else none
        | _ => none
      imageUri :=
        match jGet meal "imageUri" with
        | some (.str s) => some s
        | _ => none
      notes :=
        match jGet meal "notes" with
        | some (.str s) => some s
        | _ => none }

/-- The inner `ensureNumber` helper of `normalizeDailyNutrition` in
`useStorage.ts`: unlike the meal-level helper it accepts only finite
numbers; everything else (strings included) is the fallback. -/
def ensureNumberDaily (value : Option JValue) (fallback : ℚ) : ℚ :=
  match value with
  | some (.num q) => jsMax0 q
  | _ => fallback

/-- `normalizeDailyNutrition` of `useStorage.ts`; the per-index host
environment for meal normalization is passed as `env`. -/
def normalizeDailyNutrition (strToNum : String → Option ℚ) (env : ℕ → JsEnv)
    (input : JValue) : DailyNutrition :=
  if jsIsObject input = false then initialDailyNutrition
  else
    let mealsRaw :=
      match jGet input "meals" with
      | some (.arr xs) => xs
      | _ => []
    let meals := mealsRaw.mapIdx (fun index meal => normalizeMeal strToNum (env index) meal index)
    let totals := calculateMealTotals meals
    { calories := ensureNumberDaily (jGet input "calories") totals.calories
      protein := ensureNumberDaily (jGet input "protein") totals.protein
      carbs := ensureNumberDaily (jGet input "carbs") totals.carbs
      fats := ensureNumberDaily (jGet input "fats") totals.fats
      meals := meals
      waterIntake := some (ensureNumberDaily (jGet input "waterIntake") 0) }

/-- A validated nutrition record (the NutritionData interface). -/
structure NutritionData where
  name : String
  serving_size : Option String
  calories : ℚ
  protein : ℚ
  carbs : ℚ
  fats : ℚ
  fiber : Option ℚ
  confidence : String
  notes : Option String
  deriving DecidableEq

/-- An analysis outcome (the AIAnalysisResult union). -/
inductive AIAnalysisResult where
  | food (data : NutritionData) : AIAnalysisResult
  | notFood (reason : String) : AIAnalysisResult
  | error (message : String) : AIAnalysisResult
  deriving DecidableEq

/-- `value.replace(/[^0-9.-]/g, '')`: keep only digits, dots and minus
signs. -/
def stripNonNumeric (s : String) : String :=
  String.mk (s.toList.filter (fun c => c.isDigit || c = '.' || c = '-'))

/-- The inner `toNumber` helper of `normalizeNutritionData` in
`geminiService.ts`: finite numbers are rounded and clamped at 0;
strings are stripped of unit characters, converted by the host
`Number` (passed as `strToNum`), rounded and clamped; everything
else is the fallback. -/
def toNumber (strToNum : String → Option ℚ) (value : Option JValue) (fallback : ℚ) : ℚ :=
  match value with
  | some (.num q) => jsMax0 (jsRound q)
  | some (.str s) =>
    match strToNum (stripNonNumeric s) with
    | some parsed => jsMax0 (jsRound parsed)
    | none => fallback
  | _ => fallback

/-- `normalizeNutritionData` of `geminiService.ts`. -/
def normalizeNutritionData (strToNum : String → Option ℚ) (input : JValue) :
    Option NutritionData :=
  if jsIsObject input = false then none
  else
    match jGet input "name" with
    | some (.str rawName) =>
      if jsTrim rawName = "" then none
      else
        some
          { name := jsTrim rawName
            serving_size :=
              match jGet input "serving_size" with
              | some (.str s) => some s
              | _ => none
            calories := toNumber strToNum (jGet input "calories") 0
            protein := toNumber strToNum (jGet input "protein") 0
            carbs := toNumber strToNum (jGet input "carbs") 0
            fats := toNumber strToNum (jGet input "fats") 0
            fiber :=
              match jGet input "fiber" with
              | none => none
              | some v => some (toNumber strToNum (some v) 0)
            confidence :=
              match jGet input "confidence" with
              | some (.str s) =>
                if s = "high" ∨ s = "medium" ∨ s = "low" then s else "medium"
              | _ => "medium"
            notes :=
              match jGet input "notes" with
              | some (.str s) => some s
              | _ => none }
    | _ => none

/-- Does the decoded value carry `is_food` strictly equal to the given
boolean? -/
def isFoodFlag (parsed : JValue) (b : Bool) : Bool :=
  match jGet parsed "is_food" with
  | some (.bool b') => b' = b
  | _ => false

/-- `handleParsedResponse` of `geminiService.ts`.  Accessing a property
of the JavaScript `null` throws, which its caller catches; that path
is modelled as `none`.  Every other decoded value yields `some`. -/
def handleParsedResponse (strToNum : String → Option ℚ) (parsed : JValue) :
    Option AIAnalysisResult :=
  match parsed with
  | .null => none
  | _ =>
    some <|
      if isFoodFlag parsed false then
        .notFood
          (match jGet parsed "reason" with
           | some (.str s) => s
           | _ => "This image does not appear to contain food")
      else if isFoodFlag parsed true || jTruthy (jGet parsed "name") then
        match normalizeNutritionData strToNum parsed with
        | some d => .food d
        | none => .error "Invalid nutrition data in response"
      else
        .error "Unexpected response format from AI"

/-- Case-insensitive prefix test between character lists (ASCII case
folding, as the `i` regular-expression flag behaves on the pattern
alphabet used here). -/
def matchesCI : List Char → List Char → Bool
  | [], _ => true
  | _ :: _, [] => false
  | p :: ps, c :: cs => (p.toLower = c.toLower) && matchesCI ps cs

/-- Remove every non-overlapping case-insensitive occurrence of `pat`,
scanning left to right; fuel-driven so that it is structurally
recursive (the fuel is the input length, which always suffices for a
non-empty pattern). -/
def stripAllCIAux (pat : List Char) : ℕ → List Char → List Char
  | 0, s => s
  | _ + 1, [] => []
  | fuel + 1, c :: rest =>
    if matchesCI pat (c :: rest) then stripAllCIAux pat fuel (rest.drop (pat.length - 1))
    else c :: stripAllCIAux pat fuel rest

/-- See `stripAllCIAux`. -/
def stripAllCI (pat : List Char) (s : List Char) : List Char :=
  stripAllCIAux pat s.length s

/-- The cleaning step of `parseAIResponse`: drop every case-insensitive
code-fence-with-language-tag marker, then every bare code-fence
marker, then trim surrounding whitespace. -/
def stripFences (text : String) : String :=
  jsTrim (String.mk (stripAllCI "\x60\x60\x60".toList
    (stripAllCI "\x60\x60\x60json".toList text.toList)))

/-- `s.indexOf(c)` restricted to found-or-not: index of the first
occurrence of `c`. -/
def firstIdx : List Char → Char → Option ℕ
  | [], _ => none
  | a :: rest, c => if a = c then some 0 else (firstIdx rest c).map (· + 1)

/-- `s.lastIndexOf(c)` restricted to found-or-not: index of the last
occurrence of `c`. -/
def lastIdx : List Char → Char → Option ℕ
  | [], _ => none
  | a :: rest, c =>
    match lastIdx rest c with
    | some j => some (j + 1)
    | none => if a = c then some 0 else none

/-- The brace-extraction fallback of `parseAIResponse`: take the
substring from the first opening brace to the last closing brace when
both exist in the right order, decode it, and hand the result to
`handleParsedResponse`; any failure (including the caught throw on a
decoded `null`) yields the final parse error. -/
def braceFallback (decode : String → Option JValue) (strToNum : String → Option ℚ)
    (cleanText : String) : AIAnalysisResult :=
  match firstIdx cleanText.toList '\x7b', lastIdx cleanText.toList '\x7d' with
  | some firstBrace, some lastBrace =>
    if firstBrace < lastBrace then
      match decode (String.mk ((cleanText.toList.drop firstBrace).take
          (lastBrace + 1 - firstBrace))) with
      | some parsed =>
        match handleParsedResponse strToNum parsed with
        | some r => r
        | none => .error "Could not parse AI response as JSON"
      | none => .error "Could not parse AI response as JSON"
    else .error "Could not parse AI response as JSON"
  | _, _ => .error "Could not parse AI response as JSON"

/-- `parseAIResponse` of `geminiService.ts`, with the host JSON decoder
passed as `decode`.  A decode that succeeds with `null` makes the
handler throw inside the same try block, so it falls through to the
brace fallback exactly like a decode failure. -/
def parseAIResponse (decode : String → Option JValue) (strToNum : String → Option ℚ)
    (text : String) : AIAnalysisResult :=
  if text = "" then .error "Empty response from AI"
  else
    match decode (stripFences text) with
    | some parsed =>
      match handleParsedResponse strToNum parsed with
      | some r => r
      | none => braceFallback decode strToNum (stripFences text)
    | none => braceFallback decode strToNum (stripFences text)

/-- The ordered model preference list of `geminiService.ts`. -/
def GEMINI_MODEL_PREFERENCE : List String :=
  ["gemini-2.0-flash", "gemini-2.0-flash-lite", "gemini-2.5-pro",
   "gemini-2.5-flash", "gemini-2.5-flash-lite"]

/-- `isValidApiKeyFormat` of `geminiService.ts`. -/
def isValidApiKeyFormat (key : String) : Bool :=
  jsStartsWith (jsTrim key) "AIza" && decide (30 < (jsTrim key).length)

/-- What one fetch of the analysis endpoint produced, as observed by the
retry loop: a non-ok HTTP response with its status and the optional
error message of its decoded body, an ok response carrying the
optional text of its first candidate, or a thrown exception with its
message. -/
inductive AttemptResult where
  | httpError (status : ℕ) (errMessage : Option String) : AttemptResult
  | success (textResponse : Option String) : AttemptResult
  | exn (message : String) : AttemptResult

/-- How the attempt loop for one model ended: an early return with a
final outcome, or moving on to the next model carrying the last error
message. -/
inductive LoopRes where
  | done (r : AIAnalysisResult) : LoopRes
  | giveUp (lastErrorMessage : String) : LoopRes
  deriving DecidableEq

/-- The message rewriting of the catch block of `requestGeminiAnalysis`. -/
def networkErrMessage (m : String) : String :=
  let errorMessage := if m = "" then "Network error" else m
  if jsIncludes errorMessage "Network request failed" || jsIncludes errorMessage "fetch" then
    "No internet connection. Please check your network."
  else errorMessage

/-- The inner attempt loop of `requestGeminiAnalysis` for one model:
`attempts` are the attempt indices still to run, `lastErrorMessage`
threads through, `oracle` is the environment response to the request
issued for a (model, attempt) pair.  The second component is the
ghost trace of requests issued. -/
def tryAttemptsTr (decode : String → Option JValue) (strToNum : String → Option ℚ)
    (oracle : String → ℕ → AttemptResult) (model : String) :
    List ℕ → String → LoopRes × List (String × ℕ)
  | [], lastErrorMessage => (.giveUp lastErrorMessage, [])
  | attempt :: rest, _ =>
    match oracle model attempt with
    | .httpError status errMessage =>
      let le := jsOrStr errMessage ("Status " ++ toString status)
      if 400 ≤ status ∧ status < 500 ∧ status ≠ 429 then (.giveUp le, [(model, attempt)])
      else
        let (res, tr) := tryAttemptsTr decode strToNum oracle model rest le
        (res, (model, attempt) :: tr)
    | .success textResponse =>
      match textResponse with
      | none =>
        let (res, tr) := tryAttemptsTr decode strToNum oracle model rest "Empty response from AI"
        (res, (model, attempt) :: tr)
      | some t =>
        if t = "" then
          let (res, tr) := tryAttemptsTr decode strToNum oracle model rest "Empty response from AI"
          (res, (model, attempt) :: tr)
        else
          match parseAIResponse decode strToNum t with
          | .error message =>
            let le := if message = "" then "Parsing failed" else message
            let (res, tr) := tryAttemptsTr decode strToNum oracle model rest le
            (res, (model, attempt) :: tr)
          | r => (.done r, [(model, attempt)])
    | .exn message =>
      let (res, tr) := tryAttemptsTr decode strToNum oracle model rest (networkErrMessage message)
      (res, (model, attempt) :: tr)

/-- The outer model loop of `requestGeminiAnalysis`; on exhaustion it
returns the final analysis-failed error built from the last error
message. -/
def tryModelsTr (decode : String → Option JValue) (strToNum : String → Option ℚ)
    (oracle : String → ℕ → AttemptResult) (attempts : List ℕ) :
    List String → String → AIAnalysisResult × List (String × ℕ)
  | [], lastErrorMessage =>
    (.error ("Analysis failed: " ++
      (if lastErrorMessage = "" then "Please check your internet connection"
       else lastErrorMessage)), [])
  | model :: models, lastErrorMessage =>
    match tryAttemptsTr decode strToNum oracle model attempts lastErrorMessage with
    | (.done r, tr) => (r, tr)
    | (.giveUp le, tr) =>
      let (res, tr') := tryModelsTr decode strToNum oracle attempts models le
      (res, tr ++ tr')

/-- `requestGeminiAnalysis` with the default retry bound (`maxRetries = 2`,
so attempts 0, 1, 2 per model). -/
def requestGeminiAnalysisTr (decode : String → Option JValue) (strToNum : String → Option ℚ)
    (oracle : String → ℕ → AttemptResult) : AIAnalysisResult × List (String × ℕ) :=
  tryModelsTr decode strToNum oracle (List.range 3) GEMINI_MODEL_PREFERENCE ""

/-- `analyzeFood` of `geminiService.ts`: the key retrieved from the
credential store is passed as `storedKey` (`none` when absent; the
empty string is falsy and hits the same guard). -/
def analyzeFoodTr (decode : String → Option JValue) (strToNum : String → Option ℚ)
    (oracle : String → ℕ → AttemptResult) (storedKey : Option String) :
    AIAnalysisResult × List (String × ℕ) :=
  match storedKey with
  | none => (.error "API key not configured. Please add your key in Settings.", [])
  | some apiKey =>
    if apiKey = "" then
      (.error "API key not configured. Please add your key in Settings.", [])
    else if isValidApiKeyFormat apiKey = false then
      (.error "Invalid API key format.", [])
    else requestGeminiAnalysisTr decode strToNum oracle

/-- What one fetch of the weekly-summary endpoint produced, as observed
by the single-pass model loop of `analyzeWeeklyProgress`. -/
inductive WeeklyAttempt where
  | httpError (status : ℕ) (errMessage : Option String) : WeeklyAttempt
  | success (text : Option String) : WeeklyAttempt
  | exn (message : String) : WeeklyAttempt

/-- The model loop of `analyzeWeeklyProgress`: one attempt per model in
order; an ok response with truthy text returns that text trimmed; any
other outcome moves to the next model (updating the last error
message except on falsy text); exhaustion yields the fixed failure
message carrying the last error detail.  The second component is the
ghost trace of models queried. -/
def weeklyLoopTr (oracle : String → WeeklyAttempt) :
    List String → String → String × List String
  | [], lastErrorMessage =>
    ("Unable to generate insight. Details: " ++
      (if lastErrorMessage = "" then "Service unavailable" else lastErrorMessage), [])
  | model :: models, lastErrorMessage =>
    match oracle model with
    | .httpError status errMessage =>
      let le := jsOrStr errMessage ("API Status " ++ toString status)
      let (res, tr) := weeklyLoopTr oracle models le
      (res, model :: tr)
    | .success text =>
      match text with
      | some s =>
        if s = "" then
          let (res, tr) := weeklyLoopTr oracle models lastErrorMessage
          (res, model :: tr)
        else (jsTrim s, [model])
      | none =>
        let (res, tr) := weeklyLoopTr oracle models lastErrorMessage
        (res, model :: tr)
    | .exn message =>
      let le := if message = "" then "Network Error" else message
      let (res, tr) := weeklyLoopTr oracle models le
      (res, model :: tr)

/-- `analyzeWeeklyProgress` of `geminiService.ts`: the profile and week
context only shape the prompt, which is folded into the oracle; the
stored key is passed like in `analyzeFoodTr`.  Note there is no
key-format validation on this path. -/
def analyzeWeeklyProgressTr (oracle : String → WeeklyAttempt) (storedKey : Option String) :
    String × List String :=
  match storedKey with
  | none => ("Please set your API key in Settings to get AI insights.", [])
  | some apiKey =>
    if apiKey = "" then ("Please set your API key in Settings to get AI insights.", [])
    else weeklyLoopTr oracle GEMINI_MODEL_PREFERENCE ""

/-- Is the possibly-undefined value a JSON number? -/
def isNumVal : Option JValue → Bool
  | some (.num _) => true
  | _ => false

/-- Is the possibly-undefined value a JSON string? -/
def isStrVal : Option JValue → Bool
  | some (.str _) => true
  | _ => false

/-- A concrete meal used to instantiate universally quantified theorems. -/
def sampleMeal : Meal :=
  { id := "m1", timestamp := "t1", name := "Apple", calories := 95, protein := 1,
    carbs := 25, fats := 0, fiber := none, serving_size := none,
    confidence := some "high", mealType := none, imageUri := none, notes := none }

/-- A concrete host environment used to instantiate universally
quantified theorems. -/
def sampleEnv : ℕ → JsEnv :=
  fun _ => { freshId := "fresh-id", nowIso := "2026-01-01T00:00:00Z", randTag := "rnd" }

/-! ### Generic facts about the embedded helpers -/

theorem jsMax0_nonneg (q : ℚ) : 0 ≤ jsMax0 q := by
  unfold jsMax0
  split
  · exact le_refl 0
  · exact le_of_not_le (by assumption)

theorem toNumber_nonneg (strToNum : String → Option ℚ) (v : Option JValue) :
    0 ≤ toNumber strToNum v 0 := by
  unfold toNumber
  split
  · exact jsMax0_nonneg _
  · split
    · exact jsMax0_nonneg _
    · exact le_refl 0
  · exact le_refl 0

theorem rat_floor_eq_int_floor (q : ℚ) : q.floor = ⌊q⌋ := rfl

theorem jsRound_intCast (n : ℤ) : jsRound (n : ℚ) = (n : ℚ) := by
  unfold jsRound
  rw [rat_floor_eq_int_floor, Int.floor_int_add]
  norm_num [Int.floor_eq_zero_iff]

/-- `ensureNumberDaily` returns its fallback whenever the stored value is
not a JSON number. -/
theorem ensureNumberDaily_not_num (v : Option JValue) (fb : ℚ) (h : isNumVal v = false) :
    ensureNumberDaily v fb = fb := by
  cases v with
  | none => rfl
  | some jv => cases jv <;> simp_all [isNumVal, ensureNumberDaily]

/-- Every single ledger mutation re-establishes the totals invariant. -/
theorem applyOp_totals (d : DailyNutrition) (op : LedgerOp) : TotalsInv (applyOp d op) := by
  cases op <;> exact ⟨rfl, rfl, rfl, rfl⟩

/-- Every single ledger mutation carries the water counter over. -/
theorem applyOp_water (d : DailyNutrition) (op : LedgerOp) :
    (applyOp d op).waterIntake = d.waterIntake := by
  cases op <;> rfl

/-! ### Claim theorems -/

/-- Claim C1: for any sequence of addMeal/updateMeal/deleteMeal operations
applied to a daily ledger entry, after each operation the aggregate
calories equal the sum of calories over the meal list, likewise for
protein, carbs and fats, and the water intake is carried over
unchanged.  Since every operation in the sequence is itself the last
element of some prefix, stating this for every non-empty sequence
covers every intermediate state. -/
theorem claim1_ledger_ops_keep_totals (d : DailyNutrition) (ops : List LedgerOp)
    (h : ops ≠ []) :
    TotalsInv (applyOps d ops) ∧ (applyOps d ops).waterIntake = d.waterIntake := by
  induction ops generalizing d with
  | nil => exact absurd rfl h
  | cons op rest ih =>
    cases rest with
    | nil => exact ⟨applyOp_totals d op, applyOp_water d op⟩
    | cons r rs =>
      obtain ⟨h1, h2⟩ := ih (applyOp d op) (List.cons_ne_nil _ _)
      exact ⟨h1, h2.trans (applyOp_water d op)⟩

/-- Witness for C1 at a concrete ledger state and operation sequence. -/
theorem claim1_ledger_ops_keep_totals_witness :
    TotalsInv (applyOps initialDailyNutrition [.add sampleMeal "fresh" "now"]) ∧
      (applyOps initialDailyNutrition [.add sampleMeal "fresh" "now"]).waterIntake =
        initialDailyNutrition.waterIntake :=
  claim1_ledger_ops_keep_totals initialDailyNutrition [.add sampleMeal "fresh" "now"]
    (List.cons_ne_nil _ _)

/-- Counterexample to claim C2 as stated: a stored entry whose scalar
calories field is a finite number is loaded with that stored value,
even when it disagrees with the sum over the (here empty) meal
list. -/
theorem claim2_counterexample :
    (normalizeDailyNutrition jsNumber sampleEnv (.obj [("calories", .num 999)])).calories ≠
      (calculateMealTotals
        (normalizeDailyNutrition jsNumber sampleEnv
          (.obj [("calories", .num 999)])).meals).calories := by
  decide

/-- Claim C2 amended: the entry produced by normalizeDailyNutrition has
each aggregate total equal to the sum over its normalized meal list
whenever the corresponding stored scalar field is not a finite
number; a stored finite number is taken (clamped at zero) instead of
the recomputed sum. -/
theorem claim2_totals_are_meal_sum_fallback (strToNum : String → Option ℚ)
    (env : ℕ → JsEnv) (j : JValue) (d : DailyNutrition)
    (hd : d = normalizeDailyNutrition strToNum env j) :
    (isNumVal (jGet j "calories") = false →
      d.calories = (calculateMealTotals d.meals).calories) ∧
    (isNumVal (jGet j "protein") = false →
      d.protein = (calculateMealTotals d.meals).protein) ∧
    (isNumVal (jGet j "carbs") = false →
      d.carbs = (calculateMealTotals d.meals).carbs) ∧
    (isNumVal (jGet j "fats") = false →
      d.fats = (calculateMealTotals d.meals).fats) := by
  subst hd
  unfold normalizeDailyNutrition
  split
  · exact ⟨fun _ => rfl, fun _ => rfl, fun _ => rfl, fun _ => rfl⟩
  · exact
      ⟨fun h => ensureNumberDaily_not_num _ _ h,
       fun h => ensureNumberDaily_not_num _ _ h,
       fun h => ensureNumberDaily_not_num _ _ h,
       fun h => ensureNumberDaily_not_num _ _ h⟩

/-- Witness for the amended C2 at a concrete stored value: no scalar
totals stored, one meal in the list. -/
theorem claim2_totals_are_meal_sum_fallback_witness :
    (normalizeDailyNutrition jsNumber sampleEnv
        (.obj [("meals", .arr [.obj [("name", .str "Egg"), ("calories", .num 78)]])])).calories =
      (calculateMealTotals
        (normalizeDailyNutrition jsNumber sampleEnv
          (.obj [("meals", .arr [.obj [("name", .str "Egg"),
            ("calories", .num 78)]])])).meals).calories :=
  (claim2_totals_are_meal_sum_fallback jsNumber sampleEnv
    (.obj [("meals", .arr [.obj [("name", .str "Egg"), ("calories", .num 78)]])])
    _ rfl).1 rfl

/-- Counterexample to claim C9 as stated: on the fractional number 3/2
the storage-side coercion keeps the value while the normalizer-side
coercion rounds it to 2, so the two coercions are not the same
function. -/
theorem claim9_counterexample :
    ensureNumber jsNumber (some (.num (3/2))) 0 ≠ toNumber jsNumber (some (.num (3/2))) 0 := by
  have hr : jsRound (3/2 : ℚ) = ((2 : ℤ) : ℚ) := by
    have h2 : ((3 : ℚ)/2 + 1/2) = ((2 : ℤ) : ℚ) := by norm_num
    unfold jsRound
    rw [rat_floor_eq_int_floor, h2, Int.floor_intCast]
  show jsMax0 (3/2) ≠ jsMax0 (jsRound (3/2))
  rw [hr]
  unfold jsMax0
  norm_num

/-- Claim C9 amended: the storage-side coercion (ensureNumber) and the
normalizer-side coercion (toNumber) agree on numeric inputs that are
whole numbers and on inputs that are neither numbers nor strings
(both fall back), but they are distinct functions: they disagree on
fractional numbers (no rounding on the storage side) and on numeric
text with units (no character stripping on the storage side). -/
theorem claim9_agreement_on_integers (strToNum : String → Option ℚ) (fb : ℚ) :
    (∀ n : ℤ, ensureNumber strToNum (some (.num (n : ℚ))) fb =
      toNumber strToNum (some (.num (n : ℚ))) fb) ∧
    (∀ v : Option JValue, isNumVal v = false → isStrVal v = false →
      ensureNumber strToNum v fb = toNumber strToNum v fb) := by
  constructor
  · intro n
    show jsMax0 (n : ℚ) = jsMax0 (jsRound (n : ℚ))
    rw [jsRound_intCast]
  · intro v hnum hstr
    cases v with
    | none => rfl
    | some jv => cases jv <;> simp_all [isNumVal, isStrVal, ensureNumber, toNumber]

/-- Witness for the amended C9 at the concrete whole number 5 and the
concrete non-numeric value true. -/
theorem claim9_agreement_on_integers_witness :
    ensureNumber jsNumber (some (.num ((5 : ℤ) : ℚ))) 0 =
      toNumber jsNumber (some (.num ((5 : ℤ) : ℚ))) 0 ∧
    ensureNumber jsNumber (some (.bool true)) 0 = toNumber jsNumber (some (.bool true)) 0 :=
  ⟨(claim9_agreement_on_integers jsNumber 0).1 5,
   (claim9_agreement_on_integers jsNumber 0).2 (some (.bool true)) rfl rfl⟩

/-- Claim C3: for every decoded value whose name field is text that is
non-empty after trimming and which does not carry an explicit false
food indicator, handleParsedResponse returns a Food outcome in which
every numeric field (fiber included, when present) is non-negative
and the confidence is one of high, medium, low.  This holds for every
host string-to-number conversion. -/
theorem claim3_handleParsed_valid_food (strToNum : String → Option ℚ) (v : JValue)
    (s : String) (hname : jGet v "name" = some (.str s)) (hne : jsTrim s ≠ "")
    (hflag : jGet v "is_food" ≠ some (.bool false)) :
    ∃ d, handleParsedResponse strToNum v = some (.food d) ∧
      0 ≤ d.calories ∧ 0 ≤ d.protein ∧ 0 ≤ d.carbs ∧ 0 ≤ d.fats ∧
      (∀ f, d.fiber = some f → 0 ≤ f) ∧
      (d.confidence = "high" ∨ d.confidence = "medium" ∨ d.confidence = "low") := by
  have hs : s ≠ "" := by
    intro h
    exact hne (by rw [h]; rfl)
  rcases v with _ | b | q | s' | xs | fields
  · exact absurd hname (by simp [jGet])
  · exact absurd hname (by simp [jGet])
  · exact absurd hname (by simp [jGet])
  · exact absurd hname (by simp [jGet])
  · exact absurd hname (by simp [jGet])
  have hflagBool : isFoodFlag (.obj fields) false = false := by
    unfold isFoodFlag
    cases hjf : jGet (.obj fields) "is_food" with
    | none => rfl
    | some jv =>
      cases jv with
      | bool b =>
        cases b with
        | false => exact absurd hjf hflag
        | true => rfl
      | null => rfl
      | num q => rfl
      | str s2 => rfl
      | arr xs => rfl
      | obj fs => rfl
  have htr : jTruthy (jGet (.obj fields) "name") = true := by
    rw [hname]
    simp [jTruthy, hs]
  have key : handleParsedResponse strToNum (.obj fields) =
      some (match normalizeNutritionData strToNum (.obj fields) with
            | some d => .food d
            | none => .error "Invalid nutrition data in response") := by
    unfold handleParsedResponse
    simp [hflagBool, htr]
  have hnorm : normalizeNutritionData strToNum (.obj fields) =
      some
        { name := jsTrim s
          serving_size :=
            match jGet (.obj fields) "serving_size" with
            | some (.str s2) => some s2
            | _ => none
          calories := toNumber strToNum (jGet (.obj fields) "calories") 0
          protein := toNumber strToNum (jGet (.obj fields) "protein") 0
          carbs := toNumber strToNum (jGet (.obj fields) "carbs") 0
          fats := toNumber strToNum (jGet (.obj fields) "fats") 0
          fiber :=
            match jGet (.obj fields) "fiber" with
            | none => none
            | some v' => some (toNumber strToNum (some v') 0)
          confidence :=
            match jGet (.obj fields) "confidence" with
            | some (.str s2) =>
              if s2 = "high" ∨ s2 = "medium" ∨ s2 = "low" then s2 else "medium"
            | _ => "medium"
          notes :=
            match jGet (.obj fields) "notes" with
            | some (.str s2) => some s2
            | _ => none } := by
    unfold normalizeNutritionData
    rw [hname]
    simp [jsIsObject, hne]
  refine ⟨_, by rw [key, hnorm], ?_, ?_, ?_, ?_, ?_, ?_⟩
  · exact toNumber_nonneg _ _
  · exact toNumber_nonneg _ _
  · exact toNumber_nonneg _ _
  · exact toNumber_nonneg _ _
  · intro f hf
    rcases hj : jGet (.obj fields) "fiber" with _ | v'
    · rw [hj] at hf
      cases hf
    · rw [hj] at hf
      cases hf
      exact toNumber_nonneg _ _
  · rcases hc : jGet (.obj fields) "confidence" with _ | jv
    · simp
    · cases jv with
      | str s2 =>
        simp only [hc]
        split
        · next h => tauto
        · simp
      | null => simp [hc]
      | bool b => simp [hc]
      | num q => simp [hc]
      | arr xs => simp [hc]
      | obj fs => simp [hc]


/-- Witness for C3 at a concrete decoded object. -/
theorem claim3_handleParsed_valid_food_witness :
    ∃ d, handleParsedResponse jsNumber (.obj [("name", .str "Apple")]) = some (.food d) ∧
      0 ≤ d.calories ∧ 0 ≤ d.protein ∧ 0 ≤ d.carbs ∧ 0 ≤ d.fats ∧
      (∀ f, d.fiber = some f → 0 ≤ f) ∧
      (d.confidence = "high" ∨ d.confidence = "medium" ∨ d.confidence = "low") :=
  claim3_handleParsed_valid_food jsNumber (.obj [("name", .str "Apple")]) "Apple" rfl
    (by decide) (by simp [jGet])

/-- Claim C8: for every decoded value carrying an explicit false food
indicator, handleParsedResponse returns NotFood, with the supplied
reason when that field is text and with the fixed default string
otherwise. -/
theorem claim8_not_food_reason (strToNum : String → Option ℚ) (v : JValue)
    (hflag : jGet v "is_food" = some (.bool false)) :
    (∀ s, jGet v "reason" = some (.str s) →
      handleParsedResponse strToNum v = some (.notFood s)) ∧
    ((∀ s, jGet v "reason" ≠ some (.str s)) →
      handleParsedResponse strToNum v =
        some (.notFood "This image does not appear to contain food")) := by
  rcases v with _ | b | q | s' | xs | fields
  · exact absurd hflag (by simp [jGet])
  · exact absurd hflag (by simp [jGet])
  · exact absurd hflag (by simp [jGet])
  · exact absurd hflag (by simp [jGet])
  · exact absurd hflag (by simp [jGet])
  have hflagBool : isFoodFlag (.obj fields) false = true := by
    unfold isFoodFlag
    rw [hflag]
    rfl
  have key : handleParsedResponse strToNum (.obj fields) =
      some (.notFood
        (match jGet (.obj fields) "reason" with
         | some (.str s) => s
         | _ => "This image does not appear to contain food")) := by
    unfold handleParsedResponse
    simp [hflagBool]
  constructor
  · intro s hr
    rw [key, hr]
  · intro hno
    rw [key]
    rcases hr : jGet (.obj fields) "reason" with _ | jv
    · rfl
    · cases jv with
      | str s2 => exact absurd hr (hno s2)
      | null => rfl
      | bool b => rfl
      | num q => rfl
      | arr xs => rfl
      | obj fs => rfl

/-- Witness for C8 at a concrete decoded object with a text reason. -/
theorem claim8_not_food_reason_witness :
    handleParsedResponse jsNumber
        (.obj [("is_food", .bool false), ("reason", .str "a cat")]) =
      some (.notFood "a cat") :=
  (claim8_not_food_reason jsNumber
    (.obj [("is_food", .bool false), ("reason", .str "a cat")]) rfl).1 "a cat" rfl

/-- `firstIdx` finds the first occurrence: the character is there and no
earlier position holds it. -/
theorem firstIdx_spec (c : Char) (cs : List Char) : ∀ (i : ℕ), firstIdx cs c = some i →
    cs[i]? = some c ∧ ∀ k : ℕ, k < i → cs[k]? ≠ some c := by
  induction cs with
  | nil => intro i h; cases h
  | cons a rest ih =>
    intro i h
    unfold firstIdx at h
    by_cases hac : a = c
    · rw [if_pos hac] at h
      cases h
      refine ⟨by simp [hac], ?_⟩
      intro k hk
      exact absurd hk (Nat.not_lt_zero k)
    · rw [if_neg hac] at h
      cases hf : firstIdx rest c with
      | none => rw [hf] at h; cases h
      | some i' =>
        rw [hf] at h
        simp only [Option.map_some'] at h
        cases h
        obtain ⟨h1, h2⟩ := ih i' hf
        refine ⟨by simpa using h1, ?_⟩
        intro k hk
        cases k with
        | zero => simp [hac]
        | succ k' =>
          have := h2 k' (by omega)
          simpa using this

/-- When `lastIdx` finds nothing, the character occurs nowhere. -/
theorem lastIdx_none (c : Char) (cs : List Char) : lastIdx cs c = none →
    ∀ k : ℕ, cs[k]? ≠ some c := by
  induction cs with
  | nil => intro _ k; simp
  | cons a rest ih =>
    intro h k
    unfold lastIdx at h
    cases hf : lastIdx rest c with
    | some j' => rw [hf] at h; cases h
    | none =>
      rw [hf] at h
      by_cases hac : a = c
      · rw [if_pos hac] at h; cases h
      · cases k with
        | zero => simp [hac]
        | succ k' => simpa using ih hf k'

/-- `lastIdx` finds the last occurrence: the character is there and no
later position holds it. -/
theorem lastIdx_spec (c : Char) (cs : List Char) : ∀ (j : ℕ), lastIdx cs c = some j →
    cs[j]? = some c ∧ ∀ k : ℕ, j < k → cs[k]? ≠ some c := by
  induction cs with
  | nil => intro j h; cases h
  | cons a rest ih =>
    intro j h
    unfold lastIdx at h
    cases hf : lastIdx rest c with
    | some j' =>
      rw [hf] at h
      cases h
      obtain ⟨h1, h2⟩ := ih j' hf
      refine ⟨by simpa using h1, ?_⟩
      intro k hk
      cases k with
      | zero => omega
      | succ k' =>
        have := h2 k' (by omega)
        simpa using this
    | none =>
      rw [hf] at h
      by_cases hac : a = c
      · rw [if_pos hac] at h
        cases h
        refine ⟨by simp [hac], ?_⟩
        intro k hk
        cases k with
        | zero => omega
        | succ k' => simpa using lastIdx_none c rest hf k'
      · rw [if_neg hac] at h; cases h

/-- The response handler throws only on the JavaScript null. -/
theorem handleParsed_some (strToNum : String → Option ℚ) (v : JValue) (h : v ≠ .null) :
    ∃ r, handleParsedResponse strToNum v = some r := by
  cases v with
  | null => exact absurd rfl h
  | bool b => exact ⟨_, rfl⟩
  | num q => exact ⟨_, rfl⟩
  | str s => exact ⟨_, rfl⟩
  | arr xs => exact ⟨_, rfl⟩
  | obj fields => exact ⟨_, rfl⟩

/-- Claim C4: the response parser returns the empty-response error on
empty input; otherwise it strips code-fence markers and attempts a
direct decode, handing a successful (non-throwing) decode to the
response handler; on decode failure (or the caught throw on a decoded
null) it extracts the substring from the first opening brace to the
last closing brace, only when both exist and the opening precedes the
closing, and decodes that; when every attempt fails it returns the
fixed parse error.  The final two conjuncts pin down that the indices
used really are the first opening and last closing brace.  Totality
(never throwing past this boundary) holds by construction, as the
embedding is a total function into the outcome type. -/
theorem claim4_parse_fallback_chain (decode : String → Option JValue)
    (strToNum : String → Option ℚ) (text : String) :
    (text = "" → parseAIResponse decode strToNum text = .error "Empty response from AI") ∧
    (∀ v, text ≠ "" → decode (stripFences text) = some v → v ≠ .null →
      ∃ r, handleParsedResponse strToNum v = some r ∧
        parseAIResponse decode strToNum text = r) ∧
    (text ≠ "" →
      (decode (stripFences text) = none ∨ decode (stripFences text) = some .null) →
      (¬ ∃ i j : ℕ, firstIdx (stripFences text).toList '\x7b' = some i ∧
          lastIdx (stripFences text).toList '\x7d' = some j ∧ i < j) →
      parseAIResponse decode strToNum text = .error "Could not parse AI response as JSON") ∧
    (∀ i j : ℕ, text ≠ "" →
      (decode (stripFences text) = none ∨ decode (stripFences text) = some .null) →
      firstIdx (stripFences text).toList '\x7b' = some i →
      lastIdx (stripFences text).toList '\x7d' = some j → i < j →
      ((∀ w, decode (String.mk (((stripFences text).toList.drop i).take (j + 1 - i))) =
            some w → w ≠ .null →
          ∃ r, handleParsedResponse strToNum w = some r ∧
            parseAIResponse decode strToNum text = r) ∧
       ((decode (String.mk (((stripFences text).toList.drop i).take (j + 1 - i))) = none ∨
         decode (String.mk (((stripFences text).toList.drop i).take (j + 1 - i))) =
           some .null) →
        parseAIResponse decode strToNum text =
          .error "Could not parse AI response as JSON"))) ∧
    (∀ i : ℕ, firstIdx (stripFences text).toList '\x7b' = some i →
      (stripFences text).toList[i]? = some '\x7b' ∧
      ∀ k : ℕ, k < i → (stripFences text).toList[k]? ≠ some '\x7b') ∧
    (∀ j : ℕ, lastIdx (stripFences text).toList '\x7d' = some j →
      (stripFences text).toList[j]? = some '\x7d' ∧
      ∀ k : ℕ, j < k → (stripFences text).toList[k]? ≠ some '\x7d') := by
  refine ⟨?_, ?_, ?_, ?_, firstIdx_spec _ _, lastIdx_spec _ _⟩
  · intro h
    unfold parseAIResponse
    rw [if_pos h]
  · intro v hne hdec hnull
    obtain ⟨r, hr⟩ := handleParsed_some strToNum v hnull
    refine ⟨r, hr, ?_⟩
    unfold parseAIResponse
    rw [if_neg hne, hdec]
    simp only [hr]
  · intro hne hdec hnp
    have hbf : braceFallback decode strToNum (stripFences text) =
        .error "Could not parse AI response as JSON" := by
      unfold braceFallback
      cases hf : firstIdx (stripFences text).toList '\x7b' with
      | none =>
        cases hl : lastIdx (stripFences text).toList '\x7d' with
        | none => rfl
        | some j => rfl
      | some i =>
        cases hl : lastIdx (stripFences text).toList '\x7d' with
        | none => rfl
        | some j =>
          by_cases hij : i < j
          · exact absurd ⟨i, j, hf, hl, hij⟩ hnp
          · simp only [if_neg hij]
    unfold parseAIResponse
    rw [if_neg hne]
    rcases hdec with h | h
    · rw [h]
      exact hbf
    · rw [h]
      exact hbf
  · intro i j hne hdec hf hl hij
    constructor
    · intro w hdw hwnull
      obtain ⟨r, hr⟩ := handleParsed_some strToNum w hwnull
      refine ⟨r, hr, ?_⟩
      have hbf : braceFallback decode strToNum (stripFences text) = r := by
        unfold braceFallback
        rw [hf, hl]
        simp only [if_pos hij]
        rw [hdw]
        simp only [hr]
      unfold parseAIResponse
      rw [if_neg hne]
      rcases hdec with h | h
      · rw [h]
        exact hbf
      · rw [h]
        exact hbf
    · intro hdw
      have hbf : braceFallback decode strToNum (stripFences text) =
          .error "Could not parse AI response as JSON" := by
        unfold braceFallback
        rw [hf, hl]
        simp only [if_pos hij]
        rcases hdw with h | h
        · rw [h]
        · rw [h]
          rfl
      unfold parseAIResponse
      rw [if_neg hne]
      rcases hdec with h | h
      · rw [h]
        exact hbf
      · rw [h]
        exact hbf


/-- Witness for C4: a concrete decoder and a noisy wrapper input that is
repaired by the brace-extraction fallback. -/
theorem claim4_witness :
    ∃ r, handleParsedResponse jsNumber (.obj [("name", .str "Rice")]) = some r ∧
      parseAIResponse
          (fun s => if s = "\x7bA\x7d" then some (.obj [("name", .str "Rice")]) else none)
          jsNumber "noise \x7bA\x7d end" = r :=
  ((claim4_parse_fallback_chain
      (fun s => if s = "\x7bA\x7d" then some (.obj [("name", .str "Rice")]) else none)
      jsNumber "noise \x7bA\x7d end").2.2.2.1 6 8
    (by decide) (Or.inl rfl) rfl rfl (by decide)).1 (.obj [("name", .str "Rice")]) rfl
    (by simp)

/-- Claim C5: whenever an attempt against a model yields a non-success
HTTP status in the 4xx range other than 429, the retry loop abandons
the remaining attempts for that model and proceeds to the next model
in the ordered list: the request trace records exactly one request to
that model before continuing with the rest of the model list. -/
theorem claim5_client_error_skips_to_next_model (decode : String → Option JValue)
    (strToNum : String → Option ℚ) (oracle : String → ℕ → AttemptResult)
    (m : String) (ms : List String) (a : ℕ) (rest : List ℕ) (le : String)
    (status : ℕ) (msg : Option String)
    (hresp : oracle m a = .httpError status msg)
    (h400 : 400 ≤ status) (h500 : status < 500) (h429 : status ≠ 429) :
    tryModelsTr decode strToNum oracle (a :: rest) (m :: ms) le =
      ((tryModelsTr decode strToNum oracle (a :: rest) ms
          (jsOrStr msg ("Status " ++ toString status))).1,
       (m, a) :: (tryModelsTr decode strToNum oracle (a :: rest) ms
          (jsOrStr msg ("Status " ++ toString status))).2) := by
  have hatt : tryAttemptsTr decode strToNum oracle m (a :: rest) le =
      (.giveUp (jsOrStr msg ("Status " ++ toString status)), [(m, a)]) := by
    unfold tryAttemptsTr
    rw [hresp]
    simp only [if_pos (And.intro h400 (And.intro h500 h429))]
  cases htm : tryModelsTr decode strToNum oracle (a :: rest) ms
      (jsOrStr msg ("Status " ++ toString status)) with
  | mk res tr' =>
    unfold tryModelsTr
    rw [hatt]
    simp only [htm]
    rfl

/-- Claim C6: whenever an attempt yields a parser outcome that is Food
or NotFood, that outcome is returned as the overall result at once:
the request trace for the whole remaining loop is exactly that single
request, so no later attempt and no later model is ever tried. -/
theorem claim6_final_outcome_stops_iteration (decode : String → Option JValue)
    (strToNum : String → Option ℚ) (oracle : String → ℕ → AttemptResult)
    (m : String) (ms : List String) (a : ℕ) (rest : List ℕ) (le : String)
    (t : String) (r : AIAnalysisResult)
    (hresp : oracle m a = .success (some t)) (hne : t ≠ "")
    (hparse : parseAIResponse decode strToNum t = r)
    (hfinal : (∃ d, r = .food d) ∨ (∃ s, r = .notFood s)) :
    tryModelsTr decode strToNum oracle (a :: rest) (m :: ms) le = (r, [(m, a)]) := by
  have hatt : tryAttemptsTr decode strToNum oracle m (a :: rest) le = (.done r, [(m, a)]) := by
    unfold tryAttemptsTr
    rw [hresp]
    simp only [if_neg hne]
    rw [hparse]
    rcases hfinal with ⟨d, rfl⟩ | ⟨s, rfl⟩
    · rfl
    · rfl
  unfold tryModelsTr
  rw [hatt]

/-- Claim C7: analyzeFood returns an Error outcome with an empty request
trace (no network call) whenever the stored credential is absent or
fails the format check (fixed prefix plus minimum length); the empty
stored string is absent-like and also yields an error without a
request. -/
theorem claim7_invalid_key_no_network (decode : String → Option JValue)
    (strToNum : String → Option ℚ) (oracle : String → ℕ → AttemptResult)
    (storedKey : Option String)
    (h : storedKey = none ∨ ∃ k, storedKey = some k ∧ isValidApiKeyFormat k = false) :
    (analyzeFoodTr decode strToNum oracle storedKey).2 = [] ∧
      ∃ msg, (analyzeFoodTr decode strToNum oracle storedKey).1 = .error msg := by
  rcases h with rfl | ⟨k, rfl, hk⟩
  · refine ⟨rfl, ?_⟩
    exact ⟨"API key not configured. Please add your key in Settings.", rfl⟩
  · by_cases hk0 : k = ""
    · subst hk0
      refine ⟨rfl, ?_⟩
      exact ⟨"API key not configured. Please add your key in Settings.", rfl⟩
    · have hv : analyzeFoodTr decode strToNum oracle (some k) =
          (.error "Invalid API key format.", []) := by
        unfold analyzeFoodTr
        simp only [if_neg hk0, if_pos hk]
      rw [hv]
      exact ⟨rfl, ⟨"Invalid API key format.", rfl⟩⟩


/-- One pass of the weekly model loop always issues at least one
request. -/
theorem weeklyLoopTr_cons_trace_ne (oracle : String → WeeklyAttempt) (m : String)
    (ms : List String) (le : String) : (weeklyLoopTr oracle (m :: ms) le).2 ≠ [] := by
  unfold weeklyLoopTr
  cases oracle m with
  | httpError status errMessage =>
    cases weeklyLoopTr oracle ms (jsOrStr errMessage ("API Status " ++ toString status)) with
    | mk res tr => simp
  | success text =>
    cases text with
    | some s =>
      by_cases hs : s = ""
      · simp only [if_pos hs]
        cases weeklyLoopTr oracle ms le with
        | mk res tr => simp
      · simp only [if_neg hs]
        simp
    | none =>
      cases weeklyLoopTr oracle ms le with
      | mk res tr => simp
  | exn message =>
    cases weeklyLoopTr oracle ms (if message = "" then "Network Error" else message) with
    | mk res tr => simp

/-- The weekly model loop either returns the trimmed text of some
successful response or the fixed failure message with a detail
string. -/
theorem weeklyLoopTr_result (oracle : String → WeeklyAttempt) (models : List String) :
    ∀ le : String,
    (∃ m s, m ∈ models ∧ oracle m = .success (some s) ∧ s ≠ "" ∧
      (weeklyLoopTr oracle models le).1 = jsTrim s) ∨
    (∃ le', (weeklyLoopTr oracle models le).1 =
      "Unable to generate insight. Details: " ++ le') := by
  induction models with
  | nil =>
    intro le
    exact Or.inr ⟨if le = "" then "Service unavailable" else le, rfl⟩
  | cons m ms ih =>
    intro le
    unfold weeklyLoopTr
    cases horc : oracle m with
    | httpError status errMessage =>
      rcases ih (jsOrStr errMessage ("API Status " ++ toString status)) with
        ⟨m2, s2, hmem, hor, hne, hres⟩ | ⟨le', hres⟩
      · cases htm : weeklyLoopTr oracle ms
            (jsOrStr errMessage ("API Status " ++ toString status)) with
        | mk res tr =>
          rw [htm] at hres
          exact Or.inl ⟨m2, s2, List.mem_cons_of_mem m hmem, hor, hne,
            by simp only [htm]; simpa using hres⟩
      · cases htm : weeklyLoopTr oracle ms
            (jsOrStr errMessage ("API Status " ++ toString status)) with
        | mk res tr =>
          rw [htm] at hres
          exact Or.inr ⟨le', by simp only [htm]; simpa using hres⟩
    | success text =>
      cases text with
      | some s =>
        by_cases hs : s = ""
        · simp only [if_pos hs]
          rcases ih le with ⟨m2, s2, hmem, hor, hne, hres⟩ | ⟨le', hres⟩
          · cases htm : weeklyLoopTr oracle ms le with
            | mk res tr =>
              rw [htm] at hres
              exact Or.inl ⟨m2, s2, List.mem_cons_of_mem m hmem, hor, hne,
            by simp only [htm]; simpa using hres⟩
          · cases htm : weeklyLoopTr oracle ms le with
            | mk res tr =>
              rw [htm] at hres
              exact Or.inr ⟨le', by simp only [htm]; simpa using hres⟩
        · simp only [if_neg hs]
          exact Or.inl ⟨m, s, List.mem_cons_self m ms, horc, hs, rfl⟩
      | none =>
        rcases ih le with ⟨m2, s2, hmem, hor, hne, hres⟩ | ⟨le', hres⟩
        · cases htm : weeklyLoopTr oracle ms le with
          | mk res tr =>
            rw [htm] at hres
            exact Or.inl ⟨m2, s2, List.mem_cons_of_mem m hmem, hor, hne,
            by simp only [htm]; simpa using hres⟩
        · cases htm : weeklyLoopTr oracle ms le with
          | mk res tr =>
            rw [htm] at hres
            exact Or.inr ⟨le', by simp only [htm]; simpa using hres⟩
    | exn message =>
      rcases ih (if message = "" then "Network Error" else message) with
        ⟨m2, s2, hmem, hor, hne, hres⟩ | ⟨le', hres⟩
      · cases htm : weeklyLoopTr oracle ms
            (if message = "" then "Network Error" else message) with
        | mk res tr =>
          rw [htm] at hres
          exact Or.inl ⟨m2, s2, List.mem_cons_of_mem m hmem, hor, hne,
            by simp only [htm]; simpa using hres⟩
      · cases htm : weeklyLoopTr oracle ms
            (if message = "" then "Network Error" else message) with
        | mk res tr =>
          rw [htm] at hres
          exact Or.inr ⟨le', by simp only [htm]; simpa using hres⟩

/-- Claim C10: with no stored credential, analyzeWeeklyProgress returns
the fixed instructional message and issues no request; with any
non-empty stored credential, even one failing the analyze-path format
check, it proceeds to network attempts (the trace is non-empty, as no
format validation is applied); and every executed path returns one of
the three string shapes rather than propagating an exception. -/
theorem claim10_weekly_insights (oracle : String → WeeklyAttempt)
    (storedKey : Option String) :
    ((storedKey = none ∨ storedKey = some "") →
      analyzeWeeklyProgressTr oracle storedKey =
        ("Please set your API key in Settings to get AI insights.", [])) ∧
    (∀ k, storedKey = some k → k ≠ "" →
      (analyzeWeeklyProgressTr oracle storedKey).2 ≠ []) ∧
    ((analyzeWeeklyProgressTr oracle storedKey).1 =
        "Please set your API key in Settings to get AI insights." ∨
      (∃ m s, oracle m = .success (some s) ∧ s ≠ "" ∧
        (analyzeWeeklyProgressTr oracle storedKey).1 = jsTrim s) ∨
      (∃ le, (analyzeWeeklyProgressTr oracle storedKey).1 =
        "Unable to generate insight. Details: " ++ le)) := by
  refine ⟨?_, ?_, ?_⟩
  · rintro (rfl | rfl)
    · rfl
    · rfl
  · rintro k rfl hk
    unfold analyzeWeeklyProgressTr
    simp only [if_neg hk]
    exact weeklyLoopTr_cons_trace_ne oracle "gemini-2.0-flash"
      ["gemini-2.0-flash-lite", "gemini-2.5-pro", "gemini-2.5-flash",
       "gemini-2.5-flash-lite"] ""
  · cases storedKey with
    | none => exact Or.inl rfl
    | some k =>
      by_cases hk : k = ""
      · subst hk
        exact Or.inl rfl
      · unfold analyzeWeeklyProgressTr
        simp only [if_neg hk]
        rcases weeklyLoopTr_result oracle GEMINI_MODEL_PREFERENCE "" with
          ⟨m, s, _, hor, hne, hres⟩ | ⟨le', hres⟩
        · exact Or.inr (Or.inl ⟨m, s, hor, hne, hres⟩)
        · exact Or.inr (Or.inr ⟨le', hres⟩)


/-- Witness for C5: a concrete oracle answering 403 to every request. -/
theorem claim5_witness :
    tryModelsTr (fun _ => none) jsNumber (fun _ _ => .httpError 403 none) [0, 1, 2]
        ["m1", "m2"] "" =
      ((tryModelsTr (fun _ => none) jsNumber (fun _ _ => .httpError 403 none) [0, 1, 2]
          ["m2"] (jsOrStr none ("Status " ++ toString 403))).1,
       ("m1", 0) :: (tryModelsTr (fun _ => none) jsNumber (fun _ _ => .httpError 403 none)
          [0, 1, 2] ["m2"] (jsOrStr none ("Status " ++ toString 403))).2) :=
  claim5_client_error_skips_to_next_model (fun _ => none) jsNumber
    (fun _ _ => .httpError 403 none) "m1" ["m2"] 0 [1, 2] "" 403 none rfl
    (by decide) (by decide) (by decide)

/-- Witness for C6: a concrete oracle and decoder that produce a Food
outcome on the first attempt of the first model. -/
theorem claim6_witness :
    tryModelsTr (fun s => if s = "\x7bF\x7d" then some (.obj [("name", .str "A")]) else none)
        jsNumber (fun _ _ => .success (some "\x7bF\x7d")) [0, 1, 2] ["m1", "m2"] "" =
      (.food { name := "A", serving_size := none, calories := 0, protein := 0, carbs := 0,
               fats := 0, fiber := none, confidence := "medium", notes := none },
       [("m1", 0)]) :=
  claim6_final_outcome_stops_iteration
    (fun s => if s = "\x7bF\x7d" then some (.obj [("name", .str "A")]) else none) jsNumber
    (fun _ _ => .success (some "\x7bF\x7d")) "m1" ["m2"] 0 [1, 2] "" "\x7bF\x7d" _
    rfl (by decide) rfl (Or.inl ⟨_, rfl⟩)

/-- Witness for C7: a concrete stored key that fails the format check. -/
theorem claim7_witness :
    (analyzeFoodTr (fun _ => none) jsNumber (fun _ _ => .exn "x") (some "shortkey")).2 = [] ∧
      ∃ msg, (analyzeFoodTr (fun _ => none) jsNumber (fun _ _ => .exn "x")
        (some "shortkey")).1 = .error msg :=
  claim7_invalid_key_no_network (fun _ => none) jsNumber (fun _ _ => .exn "x")
    (some "shortkey") (Or.inr ⟨"shortkey", rfl, by decide⟩)

/-- Witness for C10: a concrete oracle, applied with no stored key and
with a malformed stored key. -/
theorem claim10_witness :
    analyzeWeeklyProgressTr (fun _ => .success (some " hi ")) none =
      ("Please set your API key in Settings to get AI insights.", []) ∧
    (analyzeWeeklyProgressTr (fun _ => .success (some " hi ")) (some "notAKey")).2 ≠ [] :=
  ⟨(claim10_weekly_insights (fun _ => .success (some " hi ")) none).1 (Or.inl rfl),
   (claim10_weekly_insights (fun _ => .success (some " hi ")) (some "notAKey")).2.1
     "notAKey" rfl (by decide)⟩

end NutriTrack
